import Mathlib

/-!
Verification of the FacterAI compositional-query retrieval pipeline.

The definitions below are shallow embeddings of the Python sources:
  - `src/core/deduplicated_retrieval_service.py` (sentence filtering,
    deduplication, sufficiency gate, backend search wrapper),
  - `src/core/fixed_query_parser.py` (entity extraction),
  - `src/core/token_optimized_generation_service.py` and
    `src/core/unified_controller.py` (generation control flow),
  - `src/core/response_context.py` (context validation).

Scores are modelled with `ℚ` (the Python code uses floats; every constant
involved is an exact decimal).  Regular-expression calls in the source are
embedded by a small backtracking matcher (`reMatch`) together with direct
word-boundary semantics for the `\b`-delimited literal patterns
(`containsTerm`).  All text processing works on `List Char` by structural
recursion so that every definition evaluates inside the kernel.
-/

namespace FacterAI

/-! ## Basic text utilities -/

def lowerStr (s : String) : String :=
  ⟨s.toList.map Char.toLower⟩

/-- Split a character list at every character satisfying `p`; pieces between
consecutive delimiters are kept (possibly empty), mirroring `str.split` /
`re.split` on a single-character class. -/
def splitChars (p : Char → Bool) : List Char → List (List Char)
  | [] => [[]]
  | c :: rest =>
    if p c then [] :: splitChars p rest
    else
      match splitChars p rest with
      | [] => [[c]]
      | piece :: pieces => (c :: piece) :: pieces

/-- `str.strip()`: remove leading and trailing whitespace. -/
def trimChars (l : List Char) : List Char :=
  ((l.dropWhile Char.isWhitespace).reverse.dropWhile Char.isWhitespace).reverse

def trimStr (s : String) : String :=
  ⟨trimChars s.toList⟩

/-- `str.split()` with no argument: whitespace-separated words, empties
dropped. -/
def whitespaceWords (l : List Char) : List (List Char) :=
  (splitChars Char.isWhitespace l).filter fun w => w ≠ []

/-! ## Word-boundary matching

`isWordChar` embeds the regex word-character class `\w` (ASCII range, which
covers every pattern constant and test string used here).  `boundaryAt`
embeds the `\b` assertion: a position is a boundary when exactly one of the
two surrounding positions holds a word character (positions outside the
string count as non-word). -/

def isWordChar (c : Char) : Bool :=
  c.isAlphanum || c = '_'

def wordCharAt (text : List Char) (j : Nat) : Bool :=
  match text.get? j with
  | some c => isWordChar c
  | none => false

def boundaryAt (text : List Char) (p : Nat) : Bool :=
  (decide (p ≠ 0) && wordCharAt text (p - 1)) != wordCharAt text p

/-- `matchesAt text pat i` holds when the literal `pat` occurs in `text`
starting at index `i`. -/
def matchesAt (text pat : List Char) (i : Nat) : Bool :=
  decide ((text.drop i).take pat.length = pat)

/-- Plain substring occurrence (embeds the Python `in` operator on `str`). -/
def listContainsSub (text pat : List Char) : Bool :=
  (List.range (text.length + 1)).any fun i => matchesAt text pat i

def containsSub (text pat : String) : Bool :=
  listContainsSub text.toList pat.toList

/-- Embeds `re.search(r'\b' + re.escape(term) + r'\b', text)`:
some occurrence of `term` in `text` flanked by word boundaries. -/
def containsTermChars (text term : List Char) : Bool :=
  (List.range (text.length + 1)).any fun i =>
    boundaryAt text i && matchesAt text term i && boundaryAt text (i + term.length)

/-- `DeduplicatedRetrievalService._contains_term`: the term is lowercased and
matching is case-insensitive (`re.IGNORECASE`), so both sides are lowercased
here. -/
def containsTerm (text term : String) : Bool :=
  containsTermChars (lowerStr text).toList (lowerStr term).toList

/-- Specification-side checker used to state what word-boundary matching
means for a term that starts and ends with a word character: the term
occurs and both flanking characters (when they exist) are non-word. -/
def strictTokenOccurs (text term : List Char) : Bool :=
  (List.range (text.length + 1)).any fun i =>
    matchesAt text term i &&
    (decide (i = 0) || !wordCharAt text (i - 1)) &&
    !wordCharAt text (i + term.length)

/-- `_split_into_sentences`: `re.split(r'[.!?]+', text)` followed by
stripping and discarding empties.  Splitting on every single delimiter and
dropping empty pieces agrees with splitting on delimiter runs. -/
def splitIntoSentences (text : String) : List String :=
  ((splitChars (fun c => c = '.' || c = '!' || c = '?') text.toList).map
    (fun l => (⟨trimChars l⟩ : String))).filter fun s => s ≠ ""

/-! ## A small backtracking regex matcher

`fixed_query_parser.py` matches its surface patterns with `re.search`.  The
constructs those patterns use are embedded here: literals, single-character
classes (`\s`, `[^,\s]`, `.`), alternation, greedy `+`/`*`/`?`, lazy `*?`,
capture groups and `$`.  `reMatch` explores alternatives in the same order
as the Python engine (alternation left first, greedy maximal first, lazy
minimal first) and `reSearch` takes the leftmost start position that
matches, so the first successful path — and hence the captures — coincide
with `re.search`. -/

inductive RE where
  | eps : RE
  | cls (p : Char → Bool) : RE
  | lit (s : List Char) : RE
  | alt (a b : RE) : RE
  | seq (a b : RE) : RE
  | starG (r : RE) : RE
  | starL (r : RE) : RE
  | optG (r : RE) : RE
  | group (idx : Nat) (r : RE) : RE
  | eos : RE

/-- Captured groups: `(index, start, stop)`. -/
abbrev Caps := List (Nat × Nat × Nat)

/-- Backtracking matcher in continuation-passing style, structurally
recursive on a fuel parameter so that it evaluates inside the kernel.
Every recursive step spends one unit of fuel; a starred subexpression is
re-entered only after consuming at least one character (empty repetitions
are cut off, as in the Python engine), so the fuel chosen by `reSearch`
below is never exhausted on the patterns of this development. -/
def reMatch : Nat → RE → List Char → Nat → Caps →
    (Nat → Caps → Option Caps) → Option Caps
  | 0, _, _, _, _, _ => none
  | f + 1, r, s, i, caps, k =>
    match r with
    | .eps => k i caps
    | .cls p =>
        match s.get? i with
        | some c => if p c then k (i + 1) caps else none
        | none => none
    | .lit t => if matchesAt s t i then k (i + t.length) caps else none
    | .alt a b => reMatch f a s i caps k <|> reMatch f b s i caps k
    | .seq a b => reMatch f a s i caps fun j cs => reMatch f b s j cs k
    | .optG a => reMatch f a s i caps k <|> k i caps
    | .starG a =>
        (reMatch f a s i caps fun j cs =>
          if i < j then reMatch f (.starG a) s j cs k else none) <|> k i caps
    | .starL a =>
        k i caps <|>
        (reMatch f a s i caps fun j cs =>
          if i < j then reMatch f (.starL a) s j cs k else none)
    | .group n a => reMatch f a s i caps fun j cs => k j ((n, i, j) :: cs)
    | .eos => if i = s.length then k i caps else none

def RE.size : RE → Nat
  | .eps => 1
  | .cls _ => 1
  | .lit _ => 1
  | .alt a b => a.size + b.size + 1
  | .seq a b => a.size + b.size + 1
  | .starG r => r.size + 1
  | .starL r => r.size + 1
  | .optG r => r.size + 1
  | .group _ r => r.size + 1
  | .eos => 1

/-- `re.search`: try every start position from the left, with ample fuel. -/
def reSearch (r : RE) (s : List Char) : Option Caps :=
  (List.range (s.length + 1)).findSome? fun i =>
    reMatch ((r.size + 2) * (s.length + 2)) r s i [] fun _ cs => some cs

/-! Pattern building blocks. -/

def rePlus (r : RE) : RE := .seq r (.starG r)

def wsCls : RE := .cls Char.isWhitespace

def tokCls : RE := .cls fun c => !(c = ',' || c.isWhitespace)

def dotCls : RE := .cls fun c => c ≠ '\n'

def reAlts : List String → RE
  | [] => .eps
  | [s] => .lit s.toList
  | s :: rest => .alt (.lit s.toList) (reAlts rest)

def reSeq (l : List RE) : RE := l.foldr .seq .eps

/-- The entity span `([^,\s]+(?:\s+[^,\s]+)*?)` as capture group `n`. -/
def xGroup (n : Nat) : RE :=
  .group n (.seq (rePlus tokCls) (.starL (.seq (rePlus wsCls) (rePlus tokCls))))

/-- `(?:\s|$)` -/
def endOrWs : RE := .alt wsCls .eos

/-- `FixedQueryParser.compositional_patterns`, in source order. -/
def compositionalPatterns : List RE :=
  [ reSeq [reAlts ["effect", "impact", "influence", "role"], rePlus wsCls,
      .lit "of".toList, rePlus wsCls, xGroup 1, rePlus wsCls,
      .lit "on".toList, rePlus wsCls, xGroup 2, endOrWs],
    reSeq [.lit "does".toList, rePlus wsCls, xGroup 1, rePlus wsCls,
      .lit "affect".toList, rePlus wsCls, xGroup 2, endOrWs],
    reSeq [xGroup 1, rePlus wsCls, .lit "and".toList, rePlus wsCls, xGroup 2,
      rePlus wsCls, reAlts ["association", "relationship", "correlation", "link"]],
    reSeq [xGroup 1, rePlus wsCls, .lit "vs".toList, .optG (.lit ".".toList),
      rePlus wsCls, xGroup 2, endOrWs],
    reSeq [xGroup 1, rePlus wsCls, .lit "compared".toList, rePlus wsCls,
      .lit "to".toList, rePlus wsCls, xGroup 2, endOrWs],
    reSeq [xGroup 1, rePlus wsCls, .lit "treatment".toList, rePlus wsCls,
      .lit "for".toList, rePlus wsCls, xGroup 2, endOrWs] ]

/-- `FixedQueryParser.single_entity_indicators`, in source order. -/
def singleEntityIndicators : List RE :=
  [ reSeq [.lit "does".toList, rePlus wsCls, .starG dotCls, rePlus wsCls,
      .lit "impair".toList, rePlus wsCls],
    reSeq [.lit "does".toList, rePlus wsCls, .starG dotCls, rePlus wsCls,
      .lit "improve".toList, rePlus wsCls],
    reSeq [.lit "does".toList, rePlus wsCls, .starG dotCls, rePlus wsCls,
      .lit "increase".toList, rePlus wsCls],
    reSeq [.lit "does".toList, rePlus wsCls, .starG dotCls, rePlus wsCls,
      .lit "decrease".toList, rePlus wsCls],
    reSeq [.lit "how".toList, rePlus wsCls, .lit "does".toList, rePlus wsCls],
    reSeq [.lit "what".toList, rePlus wsCls, .lit "are".toList, rePlus wsCls,
      .lit "the".toList, rePlus wsCls, .lit "effects".toList, rePlus wsCls,
      .lit "of".toList, rePlus wsCls] ]

/-! ## `FixedQueryParser` (`fixed_query_parser.py`) -/

/-- An apostrophe character, used inside a few table entries. -/
def apos : String := String.singleton (Char.ofNat 39)

/-- `FixedQueryParser.synonyms` (an insertion-ordered dict). -/
def synonyms : List (String × List String) :=
  [ ("microplastics", ["microplastics", "microplastic", "plastic particles",
      "nanoplastics", "plastic debris"]),
    ("testosterone", ["testosterone", "test", "androgen", "male hormone", "T"]),
    ("alzheimer", ["alzheimer", "alzheimer" ++ apos ++ "s", "dementia",
      "cognitive decline", "neurodegeneration"]),
    ("cancer", ["cancer", "tumor", "neoplasm", "malignancy", "carcinoma"]),
    ("diabetes", ["diabetes", "diabetic", "blood sugar", "glucose", "insulin"]),
    ("inflammation", ["inflammation", "inflammatory", "swelling", "irritation",
      "inflammatory response"]),
    ("cardiovascular", ["cardiovascular", "heart", "cardiac", "circulatory",
      "vascular"]),
    ("immune", ["immune", "immunity", "immunological", "defense", "resistance"]),
    ("oxidative", ["oxidative", "oxidation", "free radicals", "antioxidant"]),
    ("stress", ["stress", "stressor", "pressure", "tension"]),
    ("creatine", ["creatine", "creatinine", "creatine supplementation",
      "creatine monohydrate"]),
    ("kidney", ["kidney", "renal", "kidney function", "egfr", "creatinine",
      "glomerular filtration"]) ]

/-- `FixedQueryParser.ad_disambiguators`. -/
def adDisambiguators : List String :=
  ["alzheimer", "alzheimer" ++ apos ++ "s", "ad", "aβ", "beta-amyloid", "amyloid",
   "tau", "tauopathy", "hippocamp", "hippocampal", "cognitive",
   "dementia", "neurodegeneration", "neurofibrillary", "plaques"]

structure ExtractedEntities where
  x_terms : List String
  y_terms : List String
  disambiguators : List String
  is_compositional : Bool
  original_query : String
deriving Repr, DecidableEq

/-- Case-insensitive de-duplication preserving first-seen order (the tail of
`FixedQueryParser._expand_terms`); `seen` holds the lowercased strings
already emitted. -/
def dedupByLowerAux : List String → List String → List String
  | _, [] => []
  | seen, t :: rest =>
    if lowerStr t ∈ seen then dedupByLowerAux seen rest
    else t :: dedupByLowerAux (lowerStr t :: seen) rest

/-- `FixedQueryParser._expand_terms`. -/
def expandTerms (term : String) : List String :=
  let tl := lowerStr term
  let expanded := synonyms.foldl
    (fun acc p => if p.2.any (fun syn => containsSub tl syn) then acc ++ p.2 else acc)
    [term]
  dedupByLowerAux [] expanded

/-- `FixedQueryParser._are_distinct_entities`: reject when the word sets of
the two raw spans overlap by more than 30% of the smaller set.  The source
comparison `overlap > 0.3 * min(len(x_words), len(y_words))` is stated with
the denominator cleared (`10·overlap > 3·min`), which is equivalent over
the integers involved. -/
def areDistinctEntities (xRaw yRaw : String) : Bool :=
  let xWords := (whitespaceWords (lowerStr xRaw).toList).dedup
  let yWords := (whitespaceWords (lowerStr yRaw).toList).dedup
  let overlap := (xWords.filter fun w => yWords.contains w).length
  !(decide (10 * overlap > 3 * min xWords.length yWords.length))

/-- `FixedQueryParser._contains_ad`. -/
def containsAD (terms : List String) : Bool :=
  terms.any fun t =>
    (["ad", "alzheimer", "dementia", "cognitive"] : List String).any fun ind =>
      containsSub (lowerStr t) ind

def stopWords : List String :=
  ["what", "is", "the", "best", "for", "how", "does", "work", "treatment",
   "therapy", "in", "adults", "healthy"]

/-- `FixedQueryParser._extract_main_terms`: `re.findall(r'\b\w+\b', ...)` is
the list of maximal word-character runs; stop-words and short words are
dropped, each term is synonym-expanded and the final `list(set(...))`
(an unordered set in Python) is modelled by `List.dedup`. -/
def extractMainTerms (query : String) : List String :=
  let words := (splitChars (fun c => !isWordChar c) (lowerStr query).toList).filter
    fun w => w ≠ []
  let mainTerms := (words.map fun w => (⟨w⟩ : String)).filter
    fun w => !stopWords.contains w && decide (w.toList.length > 2)
  (mainTerms.foldl (fun acc t => acc ++ expandTerms t) []).dedup

/-- `FixedQueryParser._is_single_entity_query`. -/
def isSingleEntityQuery (ql : String) : Bool :=
  singleEntityIndicators.any (fun p => (reSearch p ql.toList).isSome) ||
  (containsSub ql " and " &&
    !((["association", "relationship", "correlation", "link", "vs", "compared"] :
        List String).any fun w => containsSub ql w))

def capSlice (s : List Char) (st en : Nat) : String :=
  ⟨(s.drop st).take (en - st)⟩

/-- Run one compositional pattern: on a match, return the two captured spans
stripped of surrounding whitespace (`match.group(i).strip()`). -/
def tryPattern (p : RE) (q : String) : Option (String × String) :=
  match reSearch p q.toList with
  | none => none
  | some caps =>
    match caps.find? (fun t => t.1 = 1), caps.find? (fun t => t.1 = 2) with
    | some c1, some c2 =>
        some (trimStr (capSlice q.toList c1.2.1 c1.2.2),
              trimStr (capSlice q.toList c2.2.1 c2.2.2))
    | _, _ => none

/-- The pattern loop of `FixedQueryParser.extract_entities`: first pattern
that matches and passes the distinct-entities guard wins; a match failing
the guard falls through to the next pattern. -/
def findCompositional : List RE → String → Option (String × String)
  | [], _ => none
  | p :: ps, q =>
    match tryPattern p q with
    | some (x, y) =>
        if areDistinctEntities x y then some (x, y) else findCompositional ps q
    | none => findCompositional ps q

/-- `FixedQueryParser.extract_entities`. -/
def extractEntities (query : String) : ExtractedEntities :=
  let ql := trimStr (lowerStr query)
  match findCompositional compositionalPatterns ql with
  | some (xRaw, yRaw) =>
      let x_terms := expandTerms xRaw
      let y_terms := expandTerms yRaw
      let disambiguators := if containsAD y_terms then adDisambiguators else []
      ⟨x_terms, y_terms, disambiguators, true, query⟩
  | none =>
      if isSingleEntityQuery ql then ⟨extractMainTerms query, [], [], false, query⟩
      else ⟨extractMainTerms query, [], [], false, query⟩

/-! ## `DeduplicatedRetrievalService` (`deduplicated_retrieval_service.py`)

Scores are `ℚ`; every constant in the source is an exact decimal. -/

/-- `response_context.Chunk`. -/
structure Chunk where
  id : String
  title : String
  pmid_or_doi : String
  sectionLabel : String
  text : String
  score : Option ℚ := none
deriving Repr, DecidableEq

structure EvidenceSentence where
  text : String
  chunk_id : String
  doc_id : String
  relation_cue_count : Nat
  study_type_prior : ℚ
deriving Repr, DecidableEq

structure DeduplicatedChunk where
  chunk : Chunk
  evidence_sentences : List EvidenceSentence
  doc_id : String
  cross_encoder_score : ℚ
  relation_bonus : ℚ
  study_type_prior : ℚ
  total_score : ℚ
  evidence_count : Nat
deriving Repr, DecidableEq

/-- A raw backend hit (`data['hits'][j]`); absent JSON fields are `none`. -/
structure Hit where
  pmid : Option String
  title : Option String
  authors : Option (List String)
  journal : Option String
  year : Option String
  abstract : Option String
  snippet : Option String
  score : Option ℚ
deriving Repr, DecidableEq

structure Paper where
  pmid : String
  title : String
  authors : List String
  journal : String
  publication_date : String
  abstract : String
  score : ℚ
  url : Option String
deriving Repr, DecidableEq

/-- The per-hit record built inside `_search_with_lambda`. -/
def toPaper (item : Hit) : Paper :=
  { pmid := item.pmid.getD ""
    title := item.title.getD "Untitled"
    authors := item.authors.getD []
    journal := item.journal.getD ""
    publication_date := item.year.getD ""
    abstract := item.abstract.getD (item.snippet.getD "")
    score := item.score.getD 0
    url :=
      match item.pmid with
      | some p =>
          if p ≠ "" then some ("https://pubmed.ncbi.nlm.nih.gov/" ++ p ++ "/")
          else none
      | none => none }

/-- `_search_with_lambda`: the whole body runs under `try/except`, and any
failure (connection error, timeout, bad status, bad JSON) is caught and an
empty list returned; a response without a `hits` key also yields `[]`. -/
def searchWithLambda : Except String (Option (List Hit)) → List Paper
  | .error _ => []
  | .ok none => []
  | .ok (some hits) => hits.map toPaper

/-- `self.inflammation_patterns`; each regex with an optional piece is
listed as its finitely many `\b`-delimited alternatives. -/
def inflammationPatterns : List (List String) :=
  [ ["neuroinflammation", "inflammation"],
    ["glial activation"],
    ["microglial activation", "microglia activation"],
    ["astrocyte activation"],
    ["cytokines", "cytokine"],
    ["interleukin"],
    ["TNF-Î±"],
    ["IL-1Î²"],
    ["CRP"],
    ["NF-ÎºB"] ]

/-- `self.negative_inflammation_patterns`. -/
def negativeInflammationPatterns : List (List String) :=
  [ ["inflammatory bowel disease"],
    ["inflammatory myopathy"],
    ["inflammatory arthritis"],
    ["inflammatory neuropathy"],
    ["inflammatory cardiomyopathy"] ]

/-- `self.relation_cues`; `increases?` and friends are listed as their two
alternatives. -/
def relationCues : List (List String) :=
  [ ["associated with"],
    ["linked to"],
    ["increases", "increase"],
    ["reduces", "reduce"],
    ["elevated"],
    ["decreased"],
    ["predicts", "predict"],
    ["correlates", "correlate"],
    ["risk"],
    ["odds ratio"],
    ["hazard ratio"],
    ["no significant"] ]

/-- `self.study_type_priors` (an insertion-ordered dict). -/
def studyTypePriors : List (String × ℚ) :=
  [ ("meta", 25 / 100),
    ("rct", 25 / 100),
    ("systematic review", 25 / 100),
    ("human", 15 / 100),
    ("clinical", 15 / 100),
    ("observational", 15 / 100),
    ("animal", 5 / 100),
    ("mouse", 5 / 100),
    ("rat", 5 / 100),
    ("in vitro", 0),
    ("cell", 0) ]

def matchesAnyPattern (s : String) (patterns : List (List String)) : Bool :=
  patterns.any fun alts => alts.any fun a => containsTerm s a

/-- `_is_inflammation_query`: exact membership test in `x_terms`. -/
def isInflammationQuery (entities : ExtractedEntities) : Bool :=
  (["inflammation", "inflammatory", "swelling", "irritation"] : List String).any
    fun term => entities.x_terms.contains term

/-- `_passes_inflammation_gate`. -/
def passesInflammationGate (sentence : String) (entities : ExtractedEntities) : Bool :=
  if !matchesAnyPattern sentence inflammationPatterns then false
  else if matchesAnyPattern sentence negativeInflammationPatterns then
    matchesAnyPattern entities.original_query negativeInflammationPatterns
  else true

/-- `_count_relation_cues`: number of cue patterns found in the sentence. -/
def countRelationCues (sentence : String) : Nat :=
  relationCues.countP fun alts => alts.any fun a => containsTerm sentence a

/-- `_get_study_type_prior`: first matching keyword (substring test) wins. -/
def getStudyTypePrior (paper : Paper) : ℚ :=
  let text := lowerStr (paper.title ++ " " ++ paper.abstract)
  match studyTypePriors.find? (fun p => containsSub text p.1) with
  | some p => p.2
  | none => 0

/-- `_sentence_contains_both_entities`. -/
def sentenceContainsBothEntities (sentence : String) (entities : ExtractedEntities) : Bool :=
  let hasX := entities.x_terms.any fun term => containsTerm sentence term
  let hasY := entities.y_terms.any fun term => containsTerm sentence term
  if entities.disambiguators ≠ [] then
    hasX && hasY && entities.disambiguators.any fun d => containsTerm sentence d
  else hasX && hasY

/-- The descending `total_score` ordering used by `list.sort(key=...,
reverse=True)`.  Python `sort` is stable; `List.insertionSort` with this
total preorder is also stable, and a stable sort by a total preorder is
unique, so the two agree. -/
def scoreDesc (a b : DeduplicatedChunk) : Prop :=
  b.total_score ≤ a.total_score

instance : DecidableRel scoreDesc := fun a b =>
  inferInstanceAs (Decidable (b.total_score ≤ a.total_score))

instance : IsTotal DeduplicatedChunk scoreDesc :=
  ⟨fun a b => le_total b.total_score a.total_score⟩

instance : IsTrans DeduplicatedChunk scoreDesc :=
  ⟨fun _ _ _ h1 h2 => le_trans h2 h1⟩

/-- `_apply_sentence_level_filter`. -/
def applySentenceLevelFilter (papers : List Paper) (entities : ExtractedEntities) :
    List DeduplicatedChunk :=
  let enhanced := papers.enum.filterMap fun pr =>
    let chunk : Chunk :=
      ⟨toString (pr.1 + 1), pr.2.title, pr.2.pmid, "Abstract", pr.2.abstract, none⟩
    let sentences := splitIntoSentences (chunk.title ++ " " ++ chunk.text)
    let evidence := sentences.filterMap fun sentence =>
      if sentenceContainsBothEntities sentence entities then
        if isInflammationQuery entities && !passesInflammationGate sentence entities then
          none
        else
          some (⟨sentence, chunk.id, chunk.pmid_or_doi, countRelationCues sentence,
            getStudyTypePrior pr.2⟩ : EvidenceSentence)
      else none
    match evidence with
    | [] => none
    | e0 :: erest =>
        let cross := pr.2.score
        let relation_bonus :=
          ((((e0 :: erest).map fun s => s.relation_cue_count).sum : ℚ)) * (1 / 10)
        let prior := (erest.map fun s => s.study_type_prior).foldl max e0.study_type_prior
        let total := cross + relation_bonus + prior
        some ⟨chunk, e0 :: erest, chunk.pmid_or_doi, cross, relation_bonus, prior, total,
          (e0 :: erest).length⟩
  enhanced.insertionSort scoreDesc

/-- The merge performed by `_deduplicate_chunks` when a chunk's `doc_id` is
already in `doc_map`: evidence sentences and counts accumulate, and when
the incoming chunk scores strictly higher, its score components replace the
stored ones. -/
def mergeChunk (old c : DeduplicatedChunk) : DeduplicatedChunk :=
  let base := { old with
    evidence_sentences := old.evidence_sentences ++ c.evidence_sentences
    evidence_count := old.evidence_count + c.evidence_count }
  if c.total_score > old.total_score then
    { base with
      total_score := c.total_score
      cross_encoder_score := c.cross_encoder_score
      relation_bonus := c.relation_bonus
      study_type_prior := c.study_type_prior }
  else base

/-- One step of the `doc_map` loop: update the entry with the chunk's
`doc_id`, or append a fresh entry (Python dicts preserve insertion order). -/
def mergeInto : List (String × DeduplicatedChunk) → DeduplicatedChunk →
    List (String × DeduplicatedChunk)
  | [], c => [(c.doc_id, c)]
  | p :: rest, c =>
      if p.1 = c.doc_id then (p.1, mergeChunk p.2 c) :: rest
      else p :: mergeInto rest c

/-- The fully built `doc_map` of `_deduplicate_chunks`. -/
def dedupMap (chunks : List DeduplicatedChunk) : List (String × DeduplicatedChunk) :=
  chunks.foldl mergeInto []

def lookupDoc : List (String × DeduplicatedChunk) → String → Option DeduplicatedChunk
  | [], _ => none
  | p :: rest, d => if p.1 = d then some p.2 else lookupDoc rest d

/-- `_deduplicate_chunks`: build `doc_map`, take its values in insertion
order, and sort by `total_score` descending (Python sorts are stable). -/
def dedupChunks (chunks : List DeduplicatedChunk) : List DeduplicatedChunk :=
  ((dedupMap chunks).map fun p => p.2).insertionSort scoreDesc

def maxChunks : Nat := 12
def minChunks : Nat := 6
def minDocs : Nat := 3

inductive RetrievalResult where
  | retrievalError (msg : String)
  | insufficientEvidence (count : Nat)
  | evidenceReady (selected : List DeduplicatedChunk)
  | papersReady (selected : List Chunk)
deriving Repr, DecidableEq

/-- The two sufficiency checks of `retrieve` (lines 127-136): too few
deduplicated chunks, then too few distinct documents; on success the top
`max_chunks` entries are selected. -/
def sufficiencyGate (deduplicated : List DeduplicatedChunk) : RetrievalResult :=
  if deduplicated.length < minChunks then
    .insufficientEvidence deduplicated.length
  else if ((deduplicated.map fun c => c.doc_id).dedup).length < minDocs then
    .insufficientEvidence deduplicated.length
  else
    .evidenceReady (deduplicated.take maxChunks)

/-- `_convert_papers_to_chunks`. -/
def convertPapersToChunks (papers : List Paper) : List Chunk :=
  papers.enum.map fun pr =>
    ⟨toString (pr.1 + 1), pr.2.title, pr.2.pmid, "Abstract", pr.2.abstract, none⟩

/-- `DeduplicatedRetrievalService.retrieve`, parameterized by the parsed
entities and by the outcome of the backend call (an `Except.error` stands
for a raised exception inside `_search_with_lambda`). -/
def retrieveDedup (entities : ExtractedEntities)
    (backend : Except String (Option (List Hit))) : RetrievalResult :=
  let papers := searchWithLambda backend
  if entities.is_compositional then
    sufficiencyGate (dedupChunks (applySentenceLevelFilter papers entities))
  else
    .papersReady (convertPapersToChunks (papers.take maxChunks))

/-! ## Generation control flow
(`token_optimized_generation_service.py`, `response_context.py`,
`unified_controller.py`) -/

/-- The per-request context fields read by the generation service
(`ResponseContext` plus the two attributes set by
`_create_insufficient_evidence_context`; `insufficient_evidence` is absent
— modelled `false` — on ordinary contexts). -/
structure GenContext where
  query : String
  selected_chunks : List Chunk
  insufficient_evidence : Bool
  evidence_count : Nat
deriving Repr, DecidableEq

/-- `_create_insufficient_evidence_context query count`: empty chunk list,
marker set, count recorded. -/
def insufficientEvidenceContext (query : String) (count : Nat) : GenContext :=
  ⟨query, [], true, count⟩

/-- Where `generate_quick_summary` / `generate_long_answer` ends up, for a
context that exists in the registry:
`raisedNoChunks` — `validate_context` raised `ValueError("No selected
chunks available for generation")`, re-raised as
`InsufficientEvidenceError`, before any further work;
`insufficientResponse count` — `_create_insufficient_evidence_response`,
the structured message carrying the evidence count;
`proceeded` — control reached evidence formatting and the model call. -/
inductive GenOutcome where
  | raisedNoChunks : GenOutcome
  | insufficientResponse (count : Nat) : GenOutcome
  | proceeded : GenOutcome
deriving Repr, DecidableEq

/-- The branch order of `generate_quick_summary` (identical in
`generate_long_answer`): `validate_context` checks the chunk list is
non-empty BEFORE the `insufficient_evidence` flag is consulted. -/
def generationOutcome (ctx : GenContext) : GenOutcome :=
  if ctx.selected_chunks = [] then .raisedNoChunks
  else if ctx.insufficient_evidence then .insufficientResponse ctx.evidence_count
  else .proceeded

/-- `get_insufficient_evidence_template(query)["summary"]`. -/
def templateSummary (query : String) : String :=
  "Insufficient evidence: No relevant studies found that mention both entities for query "
    ++ apos ++ query ++ apos
    ++ ". More research is needed to provide a reliable summary."

/-- `get_insufficient_evidence_template(query)["answer"]`. -/
def templateAnswer (query : String) : String :=
  "Insufficient evidence: No relevant studies found that mention both entities for query "
    ++ apos ++ query ++ apos
    ++ ". More research is needed to provide a detailed analysis."

/-- `_create_insufficient_evidence_response("summary", context)` message —
the count-carrying text. -/
def countMessageSummary (count : Nat) : String :=
  "Insufficient evidence: Only " ++ toString count
    ++ " relevant studies found that mention both entities. More research is needed to provide a reliable summary."

def countMessageAnswer (count : Nat) : String :=
  "Insufficient evidence: Only " ++ toString count
    ++ " relevant studies found that mention both entities. More research is needed to provide a detailed analysis."

structure ControllerResponse where
  success : Bool
  summary : String
  answer : String
deriving Repr, DecidableEq

/-- `UnifiedController.process_query` after a retrieval that returned the
insufficient-evidence context (the sufficiency gate rejected having found
`count` chunks).  Each generation task's raised exception is collected by
`asyncio.gather(..., return_exceptions=True)` and replaced with
`get_insufficient_evidence_template(query)`; an `insufficientResponse`
would be returned as a normal result; `proceeded` stands for an opaque
model completion (unreachable from this context, which has no chunks). -/
def processQueryInsufficient (query : String) (count : Nat) : ControllerResponse :=
  let ctx := insufficientEvidenceContext query count
  let summary :=
    match generationOutcome ctx with
    | .raisedNoChunks => templateSummary query
    | .insufficientResponse c => countMessageSummary c
    | .proceeded => "(model completion)"
  let answer :=
    match generationOutcome ctx with
    | .raisedNoChunks => templateAnswer query
    | .insufficientResponse c => countMessageAnswer c
    | .proceeded => "(model completion)"
  ⟨true, summary, answer⟩

/-! ## Concrete sample data used by witnesses and counterexamples -/

/-- Entities of the compositional query
"effect of microplastics on kidney function". -/
def entsMicroKidney : ExtractedEntities :=
  ⟨["microplastics"], ["kidney"], [], true, "effect of microplastics on kidney function"⟩

def sampleChunk (ident docId : String) (score : ℚ) : DeduplicatedChunk :=
  { chunk := ⟨ident, "T", docId, "Abstract", "", none⟩
    evidence_sentences := [⟨"s", ident, docId, 0, 0⟩]
    doc_id := docId
    cross_encoder_score := score
    relation_bonus := 0
    study_type_prior := 0
    total_score := score
    evidence_count := 1 }

/-! ## Claims -/

/-- C2.  The claim says a failed backend call surfaces as a retrieval error
and that the insufficient-evidence path is never taken for such a request.
In the code, `_search_with_lambda` catches the exception and returns `[]`,
after which the compositional pipeline runs on zero papers and takes the
insufficient-evidence path with count 0 — this counterexample exhibits
exactly that. -/
theorem c2_counterexample :
    retrieveDedup entsMicroKidney (Except.error "connection timed out") =
      RetrievalResult.insufficientEvidence 0 := by decide

/-- C2 (amended).  For every compositional request whose backend call
fails, the exception is swallowed inside `_search_with_lambda` (which
returns an empty hit list) and retrieval returns the structured
insufficient-evidence result with count 0; no retrieval error is
surfaced. -/
theorem c2_amended (entities : ExtractedEntities) (msg : String)
    (h : entities.is_compositional = true) :
    retrieveDedup entities (Except.error msg) =
      RetrievalResult.insufficientEvidence 0 := by
  unfold retrieveDedup searchWithLambda
  rw [h]
  rfl

theorem c2_amended_witness :
    entsMicroKidney.is_compositional = true ∧
    retrieveDedup entsMicroKidney (Except.error "read timed out") =
      RetrievalResult.insufficientEvidence 0 :=
  ⟨by decide, c2_amended entsMicroKidney "read timed out" (by decide)⟩

/-- C4.  The document-diversity rule is independent of the chunk-count
rule: whenever the consolidated list spans fewer than `min_docs = 3`
distinct `doc_id` values, the sufficiency checks of `retrieve` reject with
the insufficient-evidence result carrying the consolidated count — no
matter how many entries there are. -/
theorem c4_diversity_independent (chunks : List DeduplicatedChunk)
    (h : ((chunks.map fun c => c.doc_id).dedup).length < minDocs) :
    sufficiencyGate chunks = RetrievalResult.insufficientEvidence chunks.length := by
  unfold sufficiencyGate
  by_cases hl : chunks.length < minChunks <;> simp [hl, h]

/-- C4 witness: exactly 6 consolidated entries spanning only 2 distinct
documents meet the chunk-count threshold (6) yet are rejected. -/
theorem c4_witness :
    minChunks ≤ 6 ∧
    sufficiencyGate
      [sampleChunk "1" "a" 1, sampleChunk "2" "a" 1, sampleChunk "3" "a" 1,
       sampleChunk "4" "b" 1, sampleChunk "5" "b" 1, sampleChunk "6" "b" 1] =
      RetrievalResult.insufficientEvidence 6 :=
  ⟨by decide, c4_diversity_independent _ (by decide)⟩

/-- C9.  The claim says "versus" is normalized to "vs" before pattern
matching, so the two spellings classify identically.  `extract_entities`
only lowercases and strips the query; "testosterone vs exercise" matches
the vs-pattern and is compositional while "testosterone versus exercise"
matches no pattern and is classified non-compositional. -/
theorem c9_counterexample :
    (extractEntities "testosterone vs exercise").is_compositional ≠
      (extractEntities "testosterone versus exercise").is_compositional := by decide

/-- C9 (amended).  No versus-normalization happens: queries written with
"versus" fail every compositional surface pattern (which only accept the
literal token "vs" or "vs."), falling back to a non-compositional parse
with empty `y_terms`, while the same query written with "vs" is
compositional. -/
theorem c9_amended :
    (extractEntities "testosterone vs exercise").is_compositional = true ∧
    (extractEntities "testosterone versus exercise").is_compositional = false ∧
    (extractEntities "testosterone versus exercise").y_terms = [] := by
  refine ⟨by decide, by decide, by decide⟩

/-- C3.  When the sufficiency gate rejects, the retrieval stage stores the
insufficient-evidence context (`selected_chunks = []`,
`insufficient_evidence = true`, `evidence_count = count`).  Both
generation entry points then stop in `validate_context` — which raises on
the empty chunk list BEFORE the `insufficient_evidence` branch — so no
model call is made, but the count-carrying structured response
(`_create_insufficient_evidence_response`) is unreachable: the caller
receives `success = true` with the generic count-free template text, and
the response carries no `insufficient_evidence`/`evidence_count` field.
The count the claim promises is dropped. -/
theorem c3_gate_reject_no_llm_but_count_lost (query : String) (count : Nat) :
    generationOutcome (insufficientEvidenceContext query count) =
      GenOutcome.raisedNoChunks ∧
    generationOutcome (insufficientEvidenceContext query count) ≠
      GenOutcome.proceeded ∧
    generationOutcome (insufficientEvidenceContext query count) ≠
      GenOutcome.insufficientResponse count ∧
    processQueryInsufficient query count =
      ⟨true, templateSummary query, templateAnswer query⟩ ∧
    processQueryInsufficient query count = processQueryInsufficient query 0 := by
  refine ⟨rfl, by simp [generationOutcome, insufficientEvidenceContext],
    by simp [generationOutcome, insufficientEvidenceContext], rfl, rfl⟩

/-! ## Entity-extraction invariant (C5) -/

theorem expand_foldl_head (tl : String) (l : List (String × List String))
    (x : String) (xs : List String) :
    ∃ ys, l.foldl
      (fun acc p => if p.2.any (fun syn => containsSub tl syn) then acc ++ p.2 else acc)
      (x :: xs) = x :: ys := by
  induction l generalizing xs with
  | nil => exact ⟨xs, rfl⟩
  | cons p rest ih =>
      simp only [List.foldl_cons]
      by_cases hp : p.2.any (fun syn => containsSub tl syn) = true
      · rw [if_pos hp]
        simpa [List.cons_append] using ih (xs ++ p.2)
      · rw [if_neg hp]
        exact ih xs

/-- Synonym expansion always keeps the raw term in front, so it never
returns an empty list. -/
theorem expandTerms_ne_nil (t : String) : expandTerms t ≠ [] := by
  simp only [expandTerms]
  obtain ⟨ys, hys⟩ := expand_foldl_head (lowerStr t) synonyms t []
  rw [hys]
  simp [dedupByLowerAux]

/-- C5.  If extraction classifies a query as compositional, both term sets
are non-empty (every compositional return path expands a captured raw span,
and expansion keeps the raw span); and every query on which some
compositional pattern matches with spans passing the distinct-entities
guard is classified compositional with both term sets non-empty. -/
theorem c5_compositional_invariant :
    (∀ query : String, (extractEntities query).is_compositional = true →
        (extractEntities query).x_terms ≠ [] ∧ (extractEntities query).y_terms ≠ []) ∧
    (∀ (query x y : String),
        findCompositional compositionalPatterns (trimStr (lowerStr query)) = some (x, y) →
        (extractEntities query).is_compositional = true ∧
        (extractEntities query).x_terms ≠ [] ∧ (extractEntities query).y_terms ≠ []) := by
  constructor
  · intro query h
    simp only [extractEntities] at h ⊢
    cases hfc : findCompositional compositionalPatterns (trimStr (lowerStr query)) with
    | some xy =>
        obtain ⟨xr, yr⟩ := xy
        exact ⟨expandTerms_ne_nil xr, expandTerms_ne_nil yr⟩
    | none =>
        rw [hfc] at h
        by_cases hs : isSingleEntityQuery (trimStr (lowerStr query)) = true <;>
          simp [hs] at h
  · intro query x y hfc
    simp only [extractEntities]
    rw [hfc]
    exact ⟨rfl, expandTerms_ne_nil x, expandTerms_ne_nil y⟩

theorem c5_witness :
    (extractEntities "testosterone vs exercise").is_compositional = true ∧
    (extractEntities "testosterone vs exercise").x_terms ≠ [] ∧
    (extractEntities "testosterone vs exercise").y_terms ≠ [] :=
  c5_compositional_invariant.2 "testosterone vs exercise" "testosterone" "exercise"
    (by decide)

/-! ## Word-boundary matching (C6) -/

theorem list_any_congr {α : Type} {l : List α} {f g : α → Bool}
    (h : ∀ a ∈ l, f a = g a) : l.any f = l.any g := by
  induction l with
  | nil => rfl
  | cons a rest ih =>
      simp only [List.any_cons]
      rw [h a (by simp), ih fun b hb => h b (by simp [hb])]

theorem matchesAt_first {text term : List Char} {i : Nat} {c0 : Char}
    (hm : matchesAt text term i = true) (h0 : term.head? = some c0) :
    text.get? i = some c0 := by
  unfold matchesAt at hm
  have h' := of_decide_eq_true hm
  have hlen : 0 < term.length := by
    cases term
    · simp at h0
    · simp
  rw [List.head?_eq_getElem?, ← h', List.getElem?_take] at h0
  rw [List.getElem?_drop] at h0
  rw [List.get?_eq_getElem?]
  simpa [hlen] using h0

theorem matchesAt_last {text term : List Char} {i : Nat} {cN : Char}
    (hm : matchesAt text term i = true) (hN : term.getLast? = some cN) :
    text.get? (i + term.length - 1) = some cN := by
  unfold matchesAt at hm
  have h' := of_decide_eq_true hm
  have hlen : 0 < term.length := by
    cases term
    · simp at hN
    · simp
  have h1 : term[term.length - 1]? = some cN := by
    rw [← List.getLast?_eq_getElem?]
    exact hN
  have h2 : ((text.drop i).take term.length)[term.length - 1]? = some cN := by
    rw [h']
    exact h1
  rw [List.getElem?_take, if_pos (by omega : term.length - 1 < term.length),
    List.getElem?_drop] at h2
  rw [List.get?_eq_getElem?, show i + term.length - 1 = i + (term.length - 1) by omega]
  exact h2

/-- C6.  For any entity term whose first and last characters are word
characters (every term in the tables is of this shape), the
word-boundary matcher `_contains_term` accepts exactly the occurrences
whose two flanking characters are absent or non-word: a substring
occurrence inside a larger word is rejected. -/
theorem c6_word_boundary (text term : List Char) (c0 cN : Char)
    (h0 : term.head? = some c0) (hw0 : isWordChar c0 = true)
    (hN : term.getLast? = some cN) (hwN : isWordChar cN = true) :
    containsTermChars text term = strictTokenOccurs text term := by
  unfold containsTermChars strictTokenOccurs
  apply list_any_congr
  intro i _
  by_cases hm : matchesAt text term i = true
  · have hlen : 0 < term.length := by
      cases term
      · simp at h0
      · simp
    have hfst : wordCharAt text i = true := by
      unfold wordCharAt
      rw [matchesAt_first hm h0]
      exact hw0
    have hlst : wordCharAt text (i + term.length - 1) = true := by
      unfold wordCharAt
      rw [matchesAt_last hm hN]
      exact hwN
    have hb1 : boundaryAt text i = (decide (i = 0) || !wordCharAt text (i - 1)) := by
      unfold boundaryAt
      rw [hfst]
      simp only [ne_eq, decide_not]
      cases hd : decide (i = 0) <;> cases hw : wordCharAt text (i - 1) <;> rfl
    have hb2 : boundaryAt text (i + term.length) = !wordCharAt text (i + term.length) := by
      unfold boundaryAt
      rw [decide_eq_true (show i + term.length ≠ 0 by omega), hlst]
      cases hw : wordCharAt text (i + term.length) <;> rfl
    simp only [hm, hb1, hb2, Bool.and_true, Bool.true_and]
  · have hmf : matchesAt text term i = false := eq_false_of_ne_true hm
    simp [hmf]

theorem c6_witness :
    containsTermChars (lowerStr "he said it").toList (lowerStr "AI").toList =
      strictTokenOccurs (lowerStr "he said it").toList (lowerStr "AI").toList ∧
    containsTerm "he said it" "AI" = false ∧
    containsTerm "the AI model" "ai" = true :=
  ⟨c6_word_boundary _ _ 'a' 'i' (by decide) (by decide) (by decide) (by decide),
   by decide, by decide⟩

/-! ## Deduplication invariants (C1, C7, C8, C10)

The `doc_map` loop of `_deduplicate_chunks` is analysed through an
invariant relating each entry of the association list to the input chunks
sharing its `doc_id`. -/

theorem mergeChunk_doc_id (old c : DeduplicatedChunk) :
    (mergeChunk old c).doc_id = old.doc_id := by
  unfold mergeChunk
  split <;> rfl

theorem mergeChunk_sentences (old c : DeduplicatedChunk) :
    (mergeChunk old c).evidence_sentences =
      old.evidence_sentences ++ c.evidence_sentences := by
  unfold mergeChunk
  split <;> rfl

theorem mergeChunk_count (old c : DeduplicatedChunk) :
    (mergeChunk old c).evidence_count = old.evidence_count + c.evidence_count := by
  unfold mergeChunk
  split <;> rfl

theorem mergeChunk_total_eq (old c : DeduplicatedChunk) :
    (mergeChunk old c).total_score =
      if c.total_score > old.total_score then c.total_score else old.total_score := by
  unfold mergeChunk
  split <;> rfl

theorem mergeChunk_total_mono (old c : DeduplicatedChunk) :
    old.total_score ≤ (mergeChunk old c).total_score := by
  rw [mergeChunk_total_eq]
  split
  next h => exact le_of_lt h
  next h => exact le_refl _

/-- The merged score components are copied wholesale either from the stored
entry or from the incoming chunk — they are never recomputed. -/
theorem mergeChunk_scores (old c : DeduplicatedChunk) :
    ((mergeChunk old c).total_score = old.total_score ∧
      (mergeChunk old c).cross_encoder_score = old.cross_encoder_score ∧
      (mergeChunk old c).relation_bonus = old.relation_bonus ∧
      (mergeChunk old c).study_type_prior = old.study_type_prior) ∨
    ((mergeChunk old c).total_score = c.total_score ∧
      (mergeChunk old c).cross_encoder_score = c.cross_encoder_score ∧
      (mergeChunk old c).relation_bonus = c.relation_bonus ∧
      (mergeChunk old c).study_type_prior = c.study_type_prior) := by
  unfold mergeChunk
  split
  · exact Or.inr ⟨rfl, rfl, rfl, rfl⟩
  · exact Or.inl ⟨rfl, rfl, rfl, rfl⟩

/-- The chunks of the input sharing a given `doc_id`, in input order. -/
def memberChunks (l : List DeduplicatedChunk) (d : String) : List DeduplicatedChunk :=
  l.filter fun c => decide (c.doc_id = d)

theorem memberChunks_append (l : List DeduplicatedChunk) (c : DeduplicatedChunk)
    (d : String) :
    memberChunks (l ++ [c]) d =
      memberChunks l d ++ (if c.doc_id = d then [c] else []) := by
  unfold memberChunks
  rw [List.filter_append]
  congr 1
  by_cases h : c.doc_id = d <;> simp [h]

/-- What a `doc_map` entry holds about the chunks merged into it:
concatenated sentences, summed counts, score components named by one member
whose `total_score` dominates the group. -/
def MergedSpec (members : List DeduplicatedChunk) (e : DeduplicatedChunk) : Prop :=
  e.evidence_sentences = members.flatMap (fun c => c.evidence_sentences) ∧
  e.evidence_count = (members.map fun c => c.evidence_count).sum ∧
  (∃ m ∈ members, e.total_score = m.total_score ∧
    e.cross_encoder_score = m.cross_encoder_score ∧
    e.relation_bonus = m.relation_bonus ∧
    e.study_type_prior = m.study_type_prior) ∧
  (∀ m ∈ members, m.total_score ≤ e.total_score)

theorem mergedSpec_single (c : DeduplicatedChunk) : MergedSpec [c] c := by
  refine ⟨by simp, by simp, ⟨c, by simp⟩, ?_⟩
  intro m hm
  rw [List.mem_singleton] at hm
  rw [hm]

theorem mergedSpec_step {ms : List DeduplicatedChunk} {e : DeduplicatedChunk}
    (h : MergedSpec ms e) (c : DeduplicatedChunk) :
    MergedSpec (ms ++ [c]) (mergeChunk e c) := by
  obtain ⟨hs, hc, ⟨m, hm, hmsc⟩, hmax⟩ := h
  refine ⟨?_, ?_, ?_, ?_⟩
  · rw [mergeChunk_sentences, hs]
    simp
  · rw [mergeChunk_count, hc]
    simp
  · rcases mergeChunk_scores e c with ⟨h1, h2, h3, h4⟩ | ⟨h1, h2, h3, h4⟩
    · exact ⟨m, by simp [hm], by rw [h1, h2, h3, h4]; exact hmsc⟩
    · exact ⟨c, by simp, by rw [h1, h2, h3, h4]; exact ⟨rfl, rfl, rfl, rfl⟩⟩
  · intro m' hm'
    rcases List.mem_append.1 hm' with h' | h'
    · exact le_trans (hmax m' h') (mergeChunk_total_mono e c)
    · rw [List.mem_singleton] at h'
      subst h'
      rw [mergeChunk_total_eq]
      split
      next => exact le_refl _
      next hgt => exact le_of_not_lt hgt

theorem lookupDoc_mergeInto_self_none {m : List (String × DeduplicatedChunk)}
    {c : DeduplicatedChunk} (h : lookupDoc m c.doc_id = none) :
    lookupDoc (mergeInto m c) c.doc_id = some c := by
  induction m with
  | nil => simp [mergeInto, lookupDoc]
  | cons p rest ih =>
      by_cases hp : p.1 = c.doc_id
      · simp [lookupDoc, hp] at h
      · simp only [lookupDoc, if_neg hp] at h
        simp only [mergeInto, if_neg hp, lookupDoc, if_neg hp]
        exact ih h

theorem lookupDoc_mergeInto_self_some {m : List (String × DeduplicatedChunk)}
    {c e : DeduplicatedChunk} (h : lookupDoc m c.doc_id = some e) :
    lookupDoc (mergeInto m c) c.doc_id = some (mergeChunk e c) := by
  induction m with
  | nil => simp [lookupDoc] at h
  | cons p rest ih =>
      by_cases hp : p.1 = c.doc_id
      · simp only [lookupDoc, if_pos hp] at h
        have he : p.2 = e := by injection h
        simp only [mergeInto, if_pos hp, lookupDoc, if_pos hp, he]
      · simp only [lookupDoc, if_neg hp] at h
        simp only [mergeInto, if_neg hp, lookupDoc, if_neg hp]
        exact ih h

theorem lookupDoc_mergeInto_ne {m : List (String × DeduplicatedChunk)}
    {c : DeduplicatedChunk} {d : String} (hne : d ≠ c.doc_id) :
    lookupDoc (mergeInto m c) d = lookupDoc m d := by
  induction m with
  | nil =>
      simp only [mergeInto, lookupDoc]
      rw [if_neg (fun h => hne h.symm)]
  | cons p rest ih =>
      by_cases hp : p.1 = c.doc_id
      · have hpd : ¬(p.1 = d) := fun h => hne (h.symm.trans hp)
        simp only [mergeInto, if_pos hp, lookupDoc]
        rw [if_neg hpd, if_neg hpd]
      · simp only [mergeInto, if_neg hp, lookupDoc]
        by_cases hd : p.1 = d <;> simp [hd, ih]

theorem keys_mergeInto (m : List (String × DeduplicatedChunk)) (c : DeduplicatedChunk) :
    (mergeInto m c).map (fun p => p.1) =
      if c.doc_id ∈ m.map (fun p => p.1) then m.map (fun p => p.1)
      else m.map (fun p => p.1) ++ [c.doc_id] := by
  induction m with
  | nil => simp [mergeInto]
  | cons p rest ih =>
      by_cases hp : p.1 = c.doc_id
      · simp [mergeInto, hp]
      · have hne : c.doc_id ≠ p.1 := fun h => hp h.symm
        simp only [mergeInto, if_neg hp, List.map_cons, List.mem_cons, hne, false_or]
        rw [ih]
        by_cases hmem : c.doc_id ∈ rest.map (fun p => p.1) <;> simp [hmem]

theorem keys_nodup_mergeInto {m : List (String × DeduplicatedChunk)}
    {c : DeduplicatedChunk} (h : (m.map fun p => p.1).Nodup) :
    ((mergeInto m c).map fun p => p.1).Nodup := by
  rw [keys_mergeInto]
  split
  next => exact h
  next hmem => simp [List.nodup_append, h, hmem]

theorem snd_doc_mergeInto {m : List (String × DeduplicatedChunk)}
    {c : DeduplicatedChunk} (h : ∀ p ∈ m, (p.2 : DeduplicatedChunk).doc_id = p.1) :
    ∀ p ∈ mergeInto m c, p.2.doc_id = p.1 := by
  induction m with
  | nil =>
      intro p hp
      simp [mergeInto] at hp
      rw [hp]
  | cons q rest ih =>
      intro p hp
      by_cases hq : q.1 = c.doc_id
      · simp only [mergeInto, if_pos hq, List.mem_cons] at hp
        rcases hp with hp | hp
        · rw [hp]
          show (mergeChunk q.2 c).doc_id = q.1
          rw [mergeChunk_doc_id]
          exact h q (by simp)
        · exact h p (by simp [hp])
      · simp only [mergeInto, if_neg hq, List.mem_cons] at hp
        rcases hp with hp | hp
        · rw [hp]
          exact h q (by simp)
        · exact ih (fun r hr => h r (by simp [hr])) p hp

/-- Invariant tying the `doc_map` association list to the processed input:
keys are distinct, every value records its key as `doc_id`, and lookups
describe exactly the chunks with that `doc_id` (none when there are none,
a `MergedSpec` entry otherwise). -/
def DMapInv (l : List DeduplicatedChunk) (m : List (String × DeduplicatedChunk)) : Prop :=
  ((m.map fun p => p.1).Nodup) ∧
  (∀ p ∈ m, p.2.doc_id = p.1) ∧
  (∀ d, lookupDoc m d = none ↔ memberChunks l d = []) ∧
  (∀ d e, lookupDoc m d = some e → MergedSpec (memberChunks l d) e)

theorem dedupMap_append (l : List DeduplicatedChunk) (c : DeduplicatedChunk) :
    dedupMap (l ++ [c]) = mergeInto (dedupMap l) c := by
  unfold dedupMap
  rw [List.foldl_append]
  rfl

theorem dedupMap_inv (l : List DeduplicatedChunk) : DMapInv l (dedupMap l) := by
  induction l using List.reverseRecOn with
  | nil =>
      refine ⟨by simp [dedupMap], by simp [dedupMap], ?_, ?_⟩
      · intro d
        simp [dedupMap, lookupDoc, memberChunks]
      · intro d e h
        simp [dedupMap, lookupDoc] at h
  | append_singleton l c ih =>
      obtain ⟨hnd, hdoc, hnone, hsome⟩ := ih
      rw [dedupMap_append]
      refine ⟨keys_nodup_mergeInto hnd, snd_doc_mergeInto hdoc, ?_, ?_⟩
      · intro d
        by_cases hd : d = c.doc_id
        · subst hd
          constructor
          · intro h
            cases hh : lookupDoc (dedupMap l) c.doc_id with
            | none =>
                rw [lookupDoc_mergeInto_self_none hh] at h
                exact absurd h (by simp)
            | some e =>
                rw [lookupDoc_mergeInto_self_some hh] at h
                exact absurd h (by simp)
          · intro h
            rw [memberChunks_append, if_pos rfl] at h
            exact absurd h (by simp)
        · rw [lookupDoc_mergeInto_ne hd, memberChunks_append,
            if_neg (fun hh => hd hh.symm)]
          simpa using hnone d
      · intro d e h
        by_cases hd : d = c.doc_id
        · subst hd
          rw [memberChunks_append, if_pos rfl]
          cases hh : lookupDoc (dedupMap l) c.doc_id with
          | none =>
              rw [lookupDoc_mergeInto_self_none hh] at h
              have he : c = e := by injection h
              have hm : memberChunks l c.doc_id = [] := (hnone _).1 hh
              rw [hm, ← he]
              simpa using mergedSpec_single c
          | some e0 =>
              rw [lookupDoc_mergeInto_self_some hh] at h
              have he : mergeChunk e0 c = e := by injection h
              rw [← he]
              exact mergedSpec_step (hsome _ _ hh) c
        · rw [lookupDoc_mergeInto_ne hd] at h
          rw [memberChunks_append, if_neg (fun hh => hd hh.symm)]
          simpa using hsome d e h

theorem lookupDoc_of_mem_values {m : List (String × DeduplicatedChunk)}
    (hnd : (m.map fun p => p.1).Nodup) (hdoc : ∀ p ∈ m, p.2.doc_id = p.1)
    {e : DeduplicatedChunk} (he : e ∈ m.map fun p => p.2) :
    lookupDoc m e.doc_id = some e := by
  induction m with
  | nil => simp at he
  | cons p rest ih =>
      rw [List.map_cons, List.mem_cons] at he
      rcases he with he | he
      · have h1 : e.doc_id = p.1 := by
          rw [he]
          exact hdoc p (by simp)
        simp only [lookupDoc, if_pos h1.symm]
        rw [he]
      · obtain ⟨q, hq, hqe⟩ := List.mem_map.1 he
        have hdq : e.doc_id = q.1 := by
          rw [← hqe]
          exact hdoc q (by simp [hq])
        have hne : ¬(p.1 = e.doc_id) := by
          intro hcontra
          have hq1 : q.1 ∈ rest.map (fun p => p.1) := List.mem_map.2 ⟨q, hq, rfl⟩
          have : p.1 ∉ rest.map (fun p => p.1) := by
            rw [List.map_cons, List.nodup_cons] at hnd
            exact hnd.1
          rw [hcontra, hdq] at this
          exact this hq1
        simp only [lookupDoc, if_neg hne]
        refine ih ?_ (fun r hr => hdoc r (by simp [hr])) he
        rw [List.map_cons, List.nodup_cons] at hnd
        exact hnd.2

theorem mem_dedupChunks_iff {l : List DeduplicatedChunk} {e : DeduplicatedChunk} :
    e ∈ dedupChunks l ↔ e ∈ (dedupMap l).map fun p => p.2 := by
  unfold dedupChunks
  exact (List.perm_insertionSort scoreDesc _).mem_iff

/-- C10 backbone: the deduplicated output never repeats a `doc_id`. -/
theorem dedupChunks_doc_nodup (l : List DeduplicatedChunk) :
    ((dedupChunks l).map fun c => c.doc_id).Nodup := by
  obtain ⟨hnd, hdoc, -, -⟩ := dedupMap_inv l
  have h1 : ((dedupMap l).map fun p => p.2).map (fun c => c.doc_id) =
      (dedupMap l).map fun p => p.1 := by
    rw [List.map_map]
    exact List.map_congr_left fun p hp => hdoc p hp
  have hperm : List.Perm (dedupChunks l) ((dedupMap l).map fun p => p.2) :=
    List.perm_insertionSort scoreDesc _
  have hperm2 := hperm.map fun c => c.doc_id
  refine hperm2.symm.nodup ?_
  rw [h1]
  exact hnd

theorem countP_le_one_of_map_nodup {α β : Type} [DecidableEq β] {l : List α}
    {f : α → β} (h : (l.map f).Nodup) (b : β) :
    l.countP (fun a => decide (f a = b)) ≤ 1 := by
  induction l with
  | nil => simp
  | cons a rest ih =>
      rw [List.map_cons, List.nodup_cons] at h
      rw [List.countP_cons]
      by_cases hab : f a = b
      · have h0 : rest.countP (fun x => decide (f x = b)) = 0 := by
          rw [List.countP_eq_zero]
          intro x hx hfx
          have : f x = f a := by
            rw [hab, of_decide_eq_true hfx]
          exact h.1 (this ▸ List.mem_map.2 ⟨x, hx, rfl⟩)
        simp [h0, hab]
      · rw [decide_eq_false hab]
        simpa using ih h.2

/-! Concrete chunks for the deduplication claims.  Both belong to document
"d1"; each is internally consistent with what `_apply_sentence_level_filter`
produces (`relation_bonus` = 0.1 × its own cue total, `total_score` =
base + bonus + prior). -/

def sA : EvidenceSentence := ⟨"sentence a", "1", "d1", 10, 0⟩

def sB1 : EvidenceSentence := ⟨"sentence b one", "2", "d1", 5, 0⟩

def sB2 : EvidenceSentence := ⟨"sentence b two", "2", "d1", 5, 0⟩

/-- cross 3, cues 10, bonus 1, total 4. -/
def cA : DeduplicatedChunk :=
  ⟨⟨"1", "T one", "d1", "Abstract", "A one", none⟩, [sA], "d1", 3, 1, 0, 4, 1⟩

/-- cross 1, cues 5+5, bonus 1, total 2. -/
def cB : DeduplicatedChunk :=
  ⟨⟨"2", "T two", "d1", "Abstract", "A two", none⟩, [sB1, sB2], "d1", 1, 1, 0, 2, 2⟩

def paperMK : Paper :=
  ⟨"d1", "T1", [], "", "", "Microplastics increase kidney risk", 1, none⟩

/-- C1 counterexample.  Merging the two evidence-bearing chunks for "d1"
keeps the winner's components: the merged group carries 20 relation cues,
so the claim demands `relation_bonus = 0.1 × 20 = 2` and
`total_score = 3 + 2 + 0 = 5`, but the code returns the stored entry with
`relation_bonus = 1` and `total_score = 4` (the maximum member's values,
never recomputed). -/
theorem c1_counterexample :
    (dedupChunks [cA, cB]).map
        (fun e => (e.doc_id, e.relation_bonus, e.study_type_prior, e.total_score)) =
      [("d1", (1 : ℚ), (0 : ℚ), (4 : ℚ))] ∧
    ((cA.evidence_sentences ++ cB.evidence_sentences).map
        fun s => s.relation_cue_count).sum = 20 ∧
    (1 : ℚ) ≠ (20 : ℚ) * (1 / 10) ∧
    (4 : ℚ) ≠ cA.cross_encoder_score + (20 : ℚ) * (1 / 10) + 0 := by
  refine ⟨by decide, by decide, by norm_num, ?_⟩
  show (4 : ℚ) ≠ 3 + (20 : ℚ) * (1 / 10) + 0
  norm_num

/-- C1 (amended).  Deduplication concatenates the group's evidence
sentences in input order, but its score fields are those of a single
member — the one with the maximum `total_score` — and are not recomputed
across the group; the recomputation the claim describes happens only
inside `_apply_sentence_level_filter`, per un-merged chunk:
`relation_bonus = 0.1 × own cue total`, `study_type_prior` = max over own
sentences, `total_score = base + bonus + prior`. -/
theorem c1_amended :
    (∀ (l : List DeduplicatedChunk) (e : DeduplicatedChunk), e ∈ dedupChunks l →
        e.evidence_sentences =
          (memberChunks l e.doc_id).flatMap (fun c => c.evidence_sentences) ∧
        (∃ m ∈ memberChunks l e.doc_id, e.total_score = m.total_score ∧
          e.cross_encoder_score = m.cross_encoder_score ∧
          e.relation_bonus = m.relation_bonus ∧
          e.study_type_prior = m.study_type_prior) ∧
        (∀ m ∈ memberChunks l e.doc_id, m.total_score ≤ e.total_score)) ∧
    (∀ (papers : List Paper) (entities : ExtractedEntities) (c : DeduplicatedChunk),
        c ∈ applySentenceLevelFilter papers entities →
        c.relation_bonus =
          ((c.evidence_sentences.map fun s => s.relation_cue_count).sum : ℚ) * (1 / 10) ∧
        c.total_score = c.cross_encoder_score + c.relation_bonus + c.study_type_prior ∧
        ∃ e0 erest, c.evidence_sentences = e0 :: erest ∧
          c.study_type_prior =
            (erest.map fun s => s.study_type_prior).foldl max e0.study_type_prior) := by
  constructor
  · intro l e he
    obtain ⟨hnd, hdoc, -, hsome⟩ := dedupMap_inv l
    have hlook : lookupDoc (dedupMap l) e.doc_id = some e :=
      lookupDoc_of_mem_values hnd hdoc (mem_dedupChunks_iff.1 he)
    obtain ⟨hs, -, hw, hmax⟩ := hsome _ _ hlook
    exact ⟨hs, hw, hmax⟩
  · intro papers entities c hc
    unfold applySentenceLevelFilter at hc
    rw [(List.perm_insertionSort scoreDesc _).mem_iff, List.mem_filterMap] at hc
    obtain ⟨pr, hpr, hf⟩ := hc
    dsimp only at hf
    split at hf
    · exact absurd hf (by simp)
    · next e0 erest heq =>
        have hcrec := Option.some.inj hf
        rw [← hcrec]
        exact ⟨rfl, rfl, e0, erest, rfl, rfl⟩

theorem c1_amended_witness :
    (mergeChunk cA cB ∈ dedupChunks [cA, cB] ∧
      (mergeChunk cA cB).evidence_sentences =
        (memberChunks [cA, cB] (mergeChunk cA cB).doc_id).flatMap
          (fun c => c.evidence_sentences)) ∧
    (∃ c, c ∈ applySentenceLevelFilter [paperMK] entsMicroKidney ∧
      c.relation_bonus =
        ((c.evidence_sentences.map fun s => s.relation_cue_count).sum : ℚ) * (1 / 10)) := by
  constructor
  · have hm : mergeChunk cA cB ∈ dedupChunks [cA, cB] := by decide
    exact ⟨hm, (c1_amended.1 [cA, cB] _ hm).1⟩
  · have hne : applySentenceLevelFilter [paperMK] entsMicroKidney ≠ [] := by decide
    cases hxs : applySentenceLevelFilter [paperMK] entsMicroKidney with
    | nil => exact absurd hxs hne
    | cons c rest =>
        refine ⟨c, List.mem_cons_self c rest, ?_⟩
        exact (c1_amended.2 [paperMK] entsMicroKidney c
          (by rw [hxs]; exact List.mem_cons_self c rest)).1

/-- C7.  Merging one more evidence-bearing chunk for a `doc_id` already
present never decreases that entry's `total_score` (the merge keeps the
maximum of the stored and incoming scores). -/
theorem c7_merge_monotone (l : List DeduplicatedChunk) (c e e' : DeduplicatedChunk)
    (he : e ∈ dedupChunks l) (hd : e.doc_id = c.doc_id)
    (he' : e' ∈ dedupChunks (l ++ [c])) (hd' : e'.doc_id = c.doc_id) :
    e.total_score ≤ e'.total_score := by
  obtain ⟨hnd, hdoc, -, -⟩ := dedupMap_inv l
  obtain ⟨hnd', hdoc', -, -⟩ := dedupMap_inv (l ++ [c])
  have h1 : lookupDoc (dedupMap l) e.doc_id = some e :=
    lookupDoc_of_mem_values hnd hdoc (mem_dedupChunks_iff.1 he)
  have h2 : lookupDoc (dedupMap (l ++ [c])) e'.doc_id = some e' :=
    lookupDoc_of_mem_values hnd' hdoc' (mem_dedupChunks_iff.1 he')
  rw [hd] at h1
  rw [hd', dedupMap_append, lookupDoc_mergeInto_self_some h1] at h2
  have he2 : mergeChunk e c = e' := by injection h2
  rw [← he2]
  exact mergeChunk_total_mono e c

theorem c7_witness : cA.total_score ≤ (mergeChunk cA cB).total_score :=
  c7_merge_monotone [cA] cB cA (mergeChunk cA cB) (by decide) (by decide)
    (by decide) (by decide)

theorem mergeInto_of_not_mem_keys {m : List (String × DeduplicatedChunk)}
    {c : DeduplicatedChunk} (h : c.doc_id ∉ m.map fun p => p.1) :
    mergeInto m c = m ++ [(c.doc_id, c)] := by
  induction m with
  | nil => rfl
  | cons p rest ih =>
      rw [List.map_cons, List.mem_cons] at h
      push_neg at h
      have hp : ¬(p.1 = c.doc_id) := fun hh => h.1 hh.symm
      simp only [mergeInto, if_neg hp, List.cons_append]
      rw [ih h.2]

theorem dedupMap_of_doc_nodup {l : List DeduplicatedChunk}
    (h : (l.map fun c => c.doc_id).Nodup) :
    dedupMap l = l.map fun c => (c.doc_id, c) := by
  induction l using List.reverseRecOn with
  | nil => rfl
  | append_singleton l c ih =>
      rw [List.map_append, List.nodup_append] at h
      obtain ⟨h1, -, h3⟩ := h
      have hnotmem : c.doc_id ∉ (l.map fun c => (c.doc_id, c)).map fun p => p.1 := by
        rw [List.map_map]
        intro hmem
        obtain ⟨x, hx, hxe⟩ := List.mem_map.1 hmem
        have hxl : c.doc_id ∈ l.map fun c => c.doc_id := by
          rw [← hxe]
          exact List.mem_map.2 ⟨x, hx, rfl⟩
        exact h3 hxl (by simp)
      rw [dedupMap_append, ih h1, mergeInto_of_not_mem_keys hnotmem, List.map_append]
      simp

/-- C8.  Deduplication is idempotent: its output has pairwise-distinct
`doc_id`s, so a second pass merges nothing, and re-sorting an already
sorted list (Python's stable sort) leaves it unchanged. -/
theorem c8_dedup_idempotent (l : List DeduplicatedChunk) :
    dedupChunks (dedupChunks l) = dedupChunks l := by
  have hnd := dedupChunks_doc_nodup l
  have hsorted : List.Sorted scoreDesc (dedupChunks l) := by
    unfold dedupChunks
    exact List.sorted_insertionSort scoreDesc _
  rw [show dedupChunks (dedupChunks l) =
      ((dedupMap (dedupChunks l)).map fun p => p.2).insertionSort scoreDesc from rfl]
  rw [dedupMap_of_doc_nodup hnd, List.map_map]
  have hid : ((fun p : String × DeduplicatedChunk => p.2) ∘ fun c => (c.doc_id, c)) =
      id := rfl
  rw [hid, List.map_id]
  exact List.Sorted.insertionSort_eq hsorted

/-- C10.  Every deduplicated output has pairwise-distinct `doc_id` values
(the number of distinct documents equals the number of entries), papers
without an identifier get the empty-string `doc_id`, and consequently at
most one consolidated entry can carry the empty `doc_id`, however many
identifier-less documents went in. -/
theorem c10_doc_ids_distinct :
    (∀ l : List DeduplicatedChunk, ((dedupChunks l).map fun c => c.doc_id).Nodup) ∧
    (∀ l : List DeduplicatedChunk,
      (((dedupChunks l).map fun c => c.doc_id).dedup).length = (dedupChunks l).length) ∧
    (∀ h : Hit, h.pmid = none → (toPaper h).pmid = "") ∧
    (∀ (papers : List Paper) (entities : ExtractedEntities),
      (dedupChunks (applySentenceLevelFilter papers entities)).countP
        (fun c => decide (c.doc_id = "")) ≤ 1) := by
  refine ⟨dedupChunks_doc_nodup, ?_, ?_, ?_⟩
  · intro l
    rw [List.Nodup.dedup (dedupChunks_doc_nodup l), List.length_map]
  · intro h hh
    simp [toPaper, hh]
  · intro papers entities
    exact countP_le_one_of_map_nodup (dedupChunks_doc_nodup _) ""

theorem c10_witness :
    (((dedupChunks [cA, cB]).map fun c => c.doc_id).dedup).length =
      (dedupChunks [cA, cB]).length ∧
    (toPaper ⟨none, some "T", none, none, none, some "abst", none, some 2⟩).pmid = "" :=
  ⟨c10_doc_ids_distinct.2.1 [cA, cB],
   c10_doc_ids_distinct.2.2.1 ⟨none, some "T", none, none, none, some "abst", none, some 2⟩ rfl⟩

end FacterAI
